import Mathlib

/-!
Verification of the download-manager repository (downloader.py, helpers.py).

Strings are embedded as `List Char`; filesystem paths handed back by the
aria2 daemon are embedded as lists of path components (`List String`).
External effects (HTTP responses, the aria2 RPC daemon, `os.path.exists`)
are supplied as explicit environment parameters; each embedded function is
annotated with the source lines it is translated from.
-/

namespace Leech

/-! ### helpers.py, `sanitize_filename` (lines 153-202) -/

/-- The nine literal characters removed by the regex
`[<>:"/\\|?*\x00-\x1f]` on line 168; control characters are handled in
`isInvalidChar`. -/
def invalidChars : List Char := ['<', '>', ':', '"', '/', '\\', '|', '?', '*']

/-- Whether `c` is matched by the regex `[<>:"/\\|?*\x00-\x1f]`. -/
def isInvalidChar (c : Char) : Bool := invalidChars.contains c || c.toNat ≤ 0x1f

/-- Line 168: `re.sub(r'[<>:"/\\|?*\x00-\x1f]', '_', filename)`. -/
def replaceInvalid (l : List Char) : List Char :=
  l.map (fun c => if isInvalidChar c then '_' else c)

/-- Membership in the strip set of `filename.strip('. ')` (line 171). -/
def isDotOrSpace (c : Char) : Bool := c = '.' || c = ' '

/-- Line 171, `filename.strip('. ')`: remove leading and trailing dots and
spaces. -/
def stripDotSpace (l : List Char) : List Char :=
  ((l.dropWhile isDotOrSpace).reverse.dropWhile isDotOrSpace).reverse

/-- Lines 168-175: replace invalid characters, strip dots and spaces, and
substitute `'download'` for an empty result. -/
def cleanupFilename (l : List Char) : List Char :=
  let s := stripDotSpace (replaceInvalid l)
  if s.isEmpty then "download".toList else s

/-- `filename.rsplit('.', 1)`: split at the LAST dot, returning
`some (before, after)` (neither part contains that dot), or `none` when the
string has no dot. -/
def rsplitDot : List Char → Option (List Char × List Char)
  | [] => none
  | c :: cs =>
    match rsplitDot cs with
    | some (n, e) => some (c :: n, e)
    | none => if c = '.' then some ([], cs) else none

/-- Lines 178-184: the `name`/`ext` split; `ext` keeps its leading dot and
is empty when the cleaned filename has no dot. -/
def splitExt (l : List Char) : List Char × List Char :=
  match rsplitDot l with
  | some (n, e) => (n, '.' :: e)
  | none => (l, [])

/-- Python slicing `l[:m]` for a possibly negative bound `m`. -/
def pySlice (l : List Char) (m : Int) : List Char :=
  if 0 ≤ m then l.take m.toNat else l.take (l.length - (-m).toNat)

/-- helpers.py lines 153-202, `sanitize_filename(filename, max_length=255)`.
The `max_length` parameter is embedded as a natural number (it is a length
bound); the internal subtraction `max_length - len(ext)` on line 188 is
carried out over `Int` exactly as Python does, including the negative-slice
behaviour of `name[:max_name_length]`. -/
def sanitize_filename (filename : List Char) (maxLength : Nat := 255) : List Char :=
  let cleaned := cleanupFilename filename
  let p := splitExt cleaned
  let name := p.1
  let ext := p.2
  let maxNameLength : Int := (maxLength : Int) - (ext.length : Int)
  let name2 := if (name.length : Int) > maxNameLength then pySlice name maxNameLength else name
  let sanitized := name2 ++ ext
  if sanitized.length > maxLength then sanitized.take maxLength else sanitized

/-- The 300-character stem of the spec example `"A"*300 + ".mp4"`. -/
def exampleNameA : List Char := List.replicate 300 'A' ++ ".mp4".toList

/-! ### downloader.py, `DirectDownloader.download` (lines 35-100)

Each loop iteration performs one `session.get`.  The environment maps the
attempt index (the value `retry_count` had when the attempt started) to
that attempt's outcome. -/

/-- The Python exceptions relevant to the retry loop.  In aiohttp,
`ClientResponseError` (raised by `response.raise_for_status()`) is a
subclass of `ClientError`. -/
inductive PyExc where
  | clientResponseError (status : Nat)
  | clientConnError
  | timeoutError
  | osError
  | downloadFailed (last : PyExc)
deriving DecidableEq

/-- What one try-block execution produces: the downloaded chunks on
success, or a raised exception. -/
inductive AttemptResult where
  | success (chunks : List Nat)
  | failure (e : PyExc)
deriving DecidableEq

/-- Observable outcome of one `session.get` attempt. -/
inductive AttemptOutcome where
  | ok (chunks : List Nat)
  | badStatus (status : Nat)
  | transport
  | timeout
  | writeFailure
deriving DecidableEq

/-- How each outcome surfaces inside the try block (lines 72-92): a 2xx
response streams its chunks to disk; a non-2xx response makes
`raise_for_status` raise `ClientResponseError`; a connection failure
raises `ClientError`; a stalled read raises `asyncio.TimeoutError`; a
failed `open`/`write` raises `OSError`. -/
def attemptResult : AttemptOutcome → AttemptResult
  | .ok chunks => .success chunks
  | .badStatus s => .failure (.clientResponseError s)
  | .transport => .failure .clientConnError
  | .timeout => .failure .timeoutError
  | .writeFailure => .failure .osError

/-- Whether `except (aiohttp.ClientError, asyncio.TimeoutError)` on line 93
catches the exception.  `clientResponseError` is caught because it
subclasses `ClientError`. -/
def isCaught : PyExc → Bool
  | .clientResponseError _ => true
  | .clientConnError => true
  | .timeoutError => true
  | _ => false

/-- How `DirectDownloader.download` terminates: `retNone` models the
implicit `return None` when the while condition fails at entry, `retFile`
a successful return, `raised` a propagated exception. -/
inductive DlOutcome where
  | retNone
  | retFile (chunks : List Nat)
  | raised (e : PyExc)
deriving DecidableEq

/-- One run of the retry loop: its outcome, the number of `session.get`
attempts made, and the argument of each `asyncio.sleep` between attempts. -/
structure DownloadRun where
  result : DlOutcome
  attempts : Nat
  sleeps : List Nat
deriving DecidableEq

/-- Lines 71-100, the `while retry_count < max_retries` loop, by recursion
on `max_retries - retry_count` (= the second numeric argument); `rc` is
the current `retry_count`.  After a caught failure, `retry_count` becomes
`rc + 1`; the loop re-raises `downloadFailed` when it reaches
`max_retries`, and otherwise sleeps `2 * (rc + 1)` seconds and retries. -/
def loopGo (env : Nat → AttemptOutcome) (rc : Nat) : Nat → DownloadRun
  | 0 => ⟨.retNone, 0, []⟩
  | r + 1 =>
    match attemptResult (env rc) with
    | .success chunks => ⟨.retFile chunks, 1, []⟩
    | .failure e =>
      if isCaught e then
        if r = 0 then ⟨.raised (.downloadFailed e), 1, []⟩
        else
          ⟨(loopGo env (rc + 1) r).result, (loopGo env (rc + 1) r).attempts + 1,
            2 * (rc + 1) :: (loopGo env (rc + 1) r).sleeps⟩
      else ⟨.raised e, 1, []⟩

/-- `DirectDownloader.download` with `max_retries = 3` (line 68) starting
from `retry_count = 0` (line 69). -/
def directDownload (env : Nat → AttemptOutcome) : DownloadRun :=
  loopGo env 0 3

/-- A server whose first response is HTTP 404 and which then serves the
file. -/
def envC3 : Nat → AttemptOutcome := fun i => if i = 0 then .badStatus 404 else .ok [42]

/-- A server whose first response is HTTP 500 and which then serves the
file. -/
def envC3a : Nat → AttemptOutcome := fun i => if i = 0 then .badStatus 500 else .ok [9]

/-! ### downloader.py, the chunk loop of a successful response (lines 76-88) -/

/-- Line 76: `total_size = int(response.headers.get('content-length', 0))`. -/
def totalSizeOf : Option Nat → Nat
  | none => 0
  | some n => n

/-- Lines 81-88: iterate the chunks, accumulating `downloaded`; the
callback fires only under `if progress_callback and total_size:` (line 85),
and each snapshot records `(downloaded, total_size)`. -/
def progressGo (hasCallback : Bool) (total : Nat) (downloaded : Nat) : List Nat → List (Nat × Nat)
  | [] => []
  | c :: cs =>
    if hasCallback && total != 0 then
      (downloaded + c, total) :: progressGo hasCallback total (downloaded + c) cs
    else
      progressGo hasCallback total (downloaded + c) cs

/-- The progress-callback invocations made while writing a response whose
`content-length` header is `contentLength` and whose body arrives as
`chunks`. -/
def progressCalls (hasCallback : Bool) (contentLength : Option Nat) (chunks : List Nat) :
    List (Nat × Nat) :=
  progressGo hasCallback (totalSizeOf contentLength) 0 chunks

/-! ### downloader.py, `DownloadManager` (lines 301-373) and the routing
check of `Aria2Downloader.download_uri` (lines 207-218) -/

/-- The suffix tested by `source.endswith('.torrent')`. -/
def torrentSuffix : List Char := ".torrent".toList

/-- The text tested by `source.startswith('magnet:')`. -/
def magnetMarker : List Char := "magnet:".toList

/-- Line 343: `source.startswith('magnet:')`. -/
def isMagnetSource (s : List Char) : Bool := magnetMarker.isPrefixOf s

/-- Line 344 verbatim: `source.endswith('.torrent') or
(os.path.exists(source) and source.endswith('.torrent'))`, with
`os.path.exists` supplied as `pathExistsF`. -/
def managerIsTorrent (pathExistsF : List Char → Bool) (s : List Char) : Bool :=
  torrentSuffix.isSuffixOf s || (pathExistsF s && torrentSuffix.isSuffixOf s)

/-- Which aria2 submission `download_uri` picks. -/
inductive UriRoute where
  | magnet
  | torrentRef
  | direct
deriving DecidableEq

/-- Lines 209-217 of `Aria2Downloader.download_uri`: magnet if the URI
starts with `magnet:`; torrent if it ends with `.torrent` OR names an
existing path; plain URI otherwise. -/
def uriRoute (pathExistsF : List Char → Bool) (uri : List Char) : UriRoute :=
  if isMagnetSource uri then .magnet
  else if torrentSuffix.isSuffixOf uri || pathExistsF uri then .torrentRef
  else .direct

/-- Errors surfacing from `DownloadManager.download`: the `ConnectionError`
of lines 349-353 when aria2 is required but unavailable, or any exception
propagated from a delegate downloader (identified by an opaque id). -/
inductive MgrError where
  | daemonRequired
  | other (eid : Nat)
deriving DecidableEq

/-- The collaborators of `DownloadManager.download`: the filesystem check,
the cached result of `_is_aria2_available` (lines 313-325), and the result
each delegate method would produce. -/
structure ManagerEnv where
  pathExistsF : List Char → Bool
  aria2Available : Bool
  aria2Magnet : List Char → Except MgrError (List Char)
  aria2Torrent : List Char → Except MgrError (List Char)
  aria2Uri : List Char → Option (List Char) → Except MgrError (List Char)
  directDl : List Char → Option (List Char) → Except MgrError (List Char)

/-- A delegate invocation, recording exactly the identifying arguments the
manager passes (lines 356, 358, 364-365, 373): the magnet and torrent
paths forward only the source, the others also the filename. -/
inductive MgrCall where
  | aria2Magnet (source : List Char)
  | aria2Torrent (source : List Char)
  | aria2Uri (source : List Char) (filename : Option (List Char))
  | directDl (source : List Char) (filename : Option (List Char))
deriving DecidableEq

/-- Lines 327-373, `DownloadManager.download`: classify the source
(lines 343-344); for magnet/torrent require aria2 (lines 347-358); for
direct URLs try aria2 when requested and available, falling back to the
direct downloader on any exception (lines 360-373).  Returns the result
together with the trace of delegate invocations. -/
def managerDownload (env : ManagerEnv) (source : List Char) (filename : Option (List Char))
    (useAria2 : Bool) : Except MgrError (List Char) × List MgrCall :=
  let isMagnet := isMagnetSource source
  let isTorrent := managerIsTorrent env.pathExistsF source
  if isMagnet || isTorrent then
    if !env.aria2Available then (.error .daemonRequired, [])
    else if isMagnet then (env.aria2Magnet source, [.aria2Magnet source])
    else (env.aria2Torrent source, [.aria2Torrent source])
  else
    if useAria2 && env.aria2Available then
      match env.aria2Uri source filename with
      | .ok p => (.ok p, [.aria2Uri source filename])
      | .error _ => (env.directDl source filename, [.aria2Uri source filename, .directDl source filename])
    else (env.directDl source filename, [.directDl source filename])

/-- A previously saved torrent file whose name lacks the `.torrent`
suffix. -/
def savedPath : List Char := "/downloads/saved_torrent".toList

/-- A filesystem on which exactly `savedPath` exists. -/
def existsSaved : List Char → Bool := fun s => s == savedPath

/-- Environment for the classification counterexample: `savedPath` exists,
the daemon is down, and the direct downloader succeeds. -/
def envC1 : ManagerEnv where
  pathExistsF := existsSaved
  aria2Available := false
  aria2Magnet := fun _ => .error (.other 0)
  aria2Torrent := fun _ => .error (.other 0)
  aria2Uri := fun _ _ => .error (.other 0)
  directDl := fun _ _ => .ok "ok".toList

/-- An unreachable daemon; nothing exists on disk. -/
def envC2 : ManagerEnv where
  pathExistsF := fun _ => false
  aria2Available := false
  aria2Magnet := fun _ => .error (.other 0)
  aria2Torrent := fun _ => .error (.other 0)
  aria2Uri := fun _ _ => .error (.other 0)
  directDl := fun _ _ => .ok "ok".toList

/-- A daemon that accepts the submission but reports a job error, with a
healthy plain-HTTP endpoint. -/
def envC6 : ManagerEnv where
  pathExistsF := fun _ => false
  aria2Available := true
  aria2Magnet := fun _ => .error (.other 0)
  aria2Torrent := fun _ => .error (.other 0)
  aria2Uri := fun _ _ => .error (.other 7)
  directDl := fun _ _ => .ok "result_file".toList

/-- A magnet link. -/
def magnetExample : List Char := "magnet:?xt=urn:btih:abc".toList

/-- A direct URL. -/
def urlExample : List Char := "https://example.com/file.bin".toList

/-- The options dict passed to the aria2 daemon, modelled as a record of
optional keys (`'dir'` is always present). -/
structure A2Options where
  dir : List Char
  outName : Option (List Char)
  followTorrent : Option (List Char)
  followMetalink : Option (List Char)
deriving DecidableEq

/-- Line 244 of `Aria2Downloader.download_magnet`:
`options = {'dir': str(self.download_dir)}` — no `'out'` key. -/
def magnetSubmitOptions (downloadDir : List Char) : A2Options :=
  ⟨downloadDir, none, none, none⟩

/-- Line 232 of `Aria2Downloader.download_torrent`:
`options = {'dir': str(self.download_dir)}` — no `'out'` key. -/
def torrentSubmitOptions (downloadDir : List Char) : A2Options :=
  ⟨downloadDir, none, none, none⟩

/-! ### downloader.py, `Aria2Downloader._monitor_download` completion path
(lines 271-290) -/

/-- `pathlib.Path(p).parent` on a path given as components. -/
def parentDir (p : List String) : List String := p.dropLast

/-- The completed aria2 job (after `followed_by` resolution, lines
275-277): its `name` and the paths of its `files`. -/
structure A2Job where
  name : String
  files : List (List String)

/-- Lines 279-290: one file gives that file's path; several give the
parent directory of the first; none gives `<download_dir>/<job name>`. -/
def monitorResultPath (downloadDir : List String) (job : A2Job) : List String :=
  match job.files with
  | [] => downloadDir ++ [job.name]
  | [f] => f
  | f :: _ :: _ => parentDir f

/-- A completed three-file job, as in the spec's multi-file example. -/
def job3 : A2Job where
  name := "album"
  files := [["downloads", "album", "track1.mp3"], ["downloads", "album", "track2.mp3"],
            ["downloads", "album", "track3.mp3"]]

/-! ## Theorems -/

/-- Elements surviving `dropWhile` were in the original list. -/
theorem mem_dropWhile_imp {c : Char} {p : Char → Bool} : ∀ {l : List Char},
    c ∈ l.dropWhile p → c ∈ l := by
  intro l h
  induction l with
  | nil => simp [List.dropWhile] at h
  | cons a as ih =>
    rw [List.dropWhile_cons] at h
    by_cases hp : p a = true
    · simp [hp] at h
      exact List.mem_cons_of_mem a (ih h)
    · simp [hp] at h
      simp [h]

/-- Stripping dots and spaces introduces no new characters. -/
theorem mem_stripDotSpace {c : Char} {l : List Char} (h : c ∈ stripDotSpace l) : c ∈ l := by
  unfold stripDotSpace at h
  rw [List.mem_reverse] at h
  have h1 := mem_dropWhile_imp h
  rw [List.mem_reverse] at h1
  exact mem_dropWhile_imp h1

/-- Every character of the substituted string is valid: invalid ones were
replaced by `'_'`. -/
theorem mem_replaceInvalid {c : Char} {l : List Char} (h : c ∈ replaceInvalid l) :
    isInvalidChar c = false := by
  unfold replaceInvalid at h
  rw [List.mem_map] at h
  obtain ⟨a, _, ha⟩ := h
  by_cases hI : isInvalidChar a = true
  · rw [if_pos hI] at ha; subst ha; decide
  · rw [if_neg hI] at ha; subst ha; simpa using hI

/-- Every character of the cleaned filename is valid. -/
theorem mem_cleanupFilename {c : Char} {l : List Char} (h : c ∈ cleanupFilename l) :
    isInvalidChar c = false := by
  unfold cleanupFilename at h
  by_cases he : (stripDotSpace (replaceInvalid l)).isEmpty = true
  · simp only [he, if_true] at h
    revert h
    revert c
    decide
  · simp only [he, if_false] at h
    exact mem_replaceInvalid (mem_stripDotSpace h)

/-- `rsplitDot` decomposes the string around its last dot. -/
theorem rsplitDot_eq_append : ∀ {l n e : List Char},
    rsplitDot l = some (n, e) → l = n ++ '.' :: e := by
  intro l
  induction l with
  | nil => intro n e h; simp [rsplitDot] at h
  | cons a as ih =>
    intro n e h
    rw [rsplitDot] at h
    cases hr : rsplitDot as with
    | some ne =>
      obtain ⟨n1, e1⟩ := ne
      rw [hr] at h
      simp at h
      obtain ⟨hn, hee⟩ := h
      subst hn; subst hee
      simpa using ih hr
    | none =>
      rw [hr] at h
      by_cases ha : a = '.'
      · simp [ha] at h
        obtain ⟨hn, hee⟩ := h
        subst hn; subst hee
        simp [ha]
      · simp [ha] at h

/-- Characters of the name part come from the input; characters of the
extension are the dot or come from the input. -/
theorem splitExt_chars {c : Char} {l : List Char} :
    (c ∈ (splitExt l).1 → c ∈ l) ∧ (c ∈ (splitExt l).2 → c = '.' ∨ c ∈ l) := by
  unfold splitExt
  cases hr : rsplitDot l with
  | some ne =>
    obtain ⟨n, e⟩ := ne
    have hl := rsplitDot_eq_append hr
    constructor
    · intro h
      rw [hl]; simp; tauto
    · intro h
      simp at h
      rcases h with h | h
      · left; exact h
      · right; rw [hl]; simp; tauto
  | none =>
    constructor
    · intro h; simpa using h
    · intro h; simp at h

/-- Python slicing introduces no new characters. -/
theorem mem_pySlice {c : Char} {l : List Char} {m : Int} (h : c ∈ pySlice l m) : c ∈ l := by
  unfold pySlice at h
  by_cases hm : 0 ≤ m
  · rw [if_pos hm] at h; exact List.mem_of_mem_take h
  · rw [if_neg hm] at h; exact List.mem_of_mem_take h

/-- Claim C4: for every input string and every maximum length, the
sanitized filename has length at most `maxLength` and contains none of
the characters `< > : " / \ | ? *` and no control characters 0x00-0x1F. -/
theorem sanitize_filename_safe (f : List Char) (m : Nat) :
    (sanitize_filename f m).length ≤ m ∧
    ∀ c ∈ sanitize_filename f m, isInvalidChar c = false := by
  constructor
  · unfold sanitize_filename
    by_cases hlong : ((if ((splitExt (cleanupFilename f)).1.length : Int) >
        (m : Int) - ((splitExt (cleanupFilename f)).2.length : Int) then
        pySlice (splitExt (cleanupFilename f)).1 ((m : Int) - ((splitExt (cleanupFilename f)).2.length : Int))
        else (splitExt (cleanupFilename f)).1) ++ (splitExt (cleanupFilename f)).2).length > m
    · simp only [hlong, if_true]
      simp [List.length_take]
    · simp only [hlong, if_false]
      omega
  · intro c hc
    unfold sanitize_filename at hc
    have hc2 : c ∈ (if ((splitExt (cleanupFilename f)).1.length : Int) >
        (m : Int) - ((splitExt (cleanupFilename f)).2.length : Int) then
        pySlice (splitExt (cleanupFilename f)).1 ((m : Int) - ((splitExt (cleanupFilename f)).2.length : Int))
        else (splitExt (cleanupFilename f)).1) ++ (splitExt (cleanupFilename f)).2 := by
      by_cases hfin : ((if ((splitExt (cleanupFilename f)).1.length : Int) >
          (m : Int) - ((splitExt (cleanupFilename f)).2.length : Int) then
          pySlice (splitExt (cleanupFilename f)).1 ((m : Int) - ((splitExt (cleanupFilename f)).2.length : Int))
          else (splitExt (cleanupFilename f)).1) ++ (splitExt (cleanupFilename f)).2).length > m
      · simp only [hfin, if_true] at hc
        exact List.mem_of_mem_take hc
      · simpa only [hfin, if_false] using hc
    rw [List.mem_append] at hc2
    rcases hc2 with h | h
    · have hname : c ∈ (splitExt (cleanupFilename f)).1 := by
        by_cases hcut : ((splitExt (cleanupFilename f)).1.length : Int) >
            (m : Int) - ((splitExt (cleanupFilename f)).2.length : Int)
        · rw [if_pos hcut] at h; exact mem_pySlice h
        · rwa [if_neg hcut] at h
      exact mem_cleanupFilename ((splitExt_chars (l := cleanupFilename f)).1 hname)
    · rcases (splitExt_chars (l := cleanupFilename f)).2 h with h1 | h1
      · subst h1; decide
      · exact mem_cleanupFilename h1

/-- Claim C9: when the cleaned filename splits into a stem and an
extension that itself fits in `maxLength`, the result is the truncated
stem followed by the untouched extension, with
`len(stem) + len(extension) <= maxLength`. -/
theorem sanitize_filename_keeps_ext (f : List Char) (m : Nat) (n e : List Char)
    (hsplit : rsplitDot (cleanupFilename f) = some (n, e))
    (hle : ('.' :: e).length ≤ m) :
    ∃ stem, sanitize_filename f m = stem ++ '.' :: e ∧
      stem.length + ('.' :: e).length ≤ m := by
  have hsp : splitExt (cleanupFilename f) = (n, '.' :: e) := by
    unfold splitExt
    rw [hsplit]
  simp only [sanitize_filename, hsp]
  have hext : ('.' :: e).length = e.length + 1 := by simp
  set mnl : Int := (m : Int) - (('.' :: e).length : Int) with hmnl
  have hmnl0 : 0 ≤ mnl := by
    rw [hmnl]
    simp at hle ⊢
    omega
  set name2 := if (n.length : Int) > mnl then pySlice n mnl else n with hname2
  have hlen2 : name2.length + ('.' :: e).length ≤ m := by
    rw [hname2]
    by_cases hcut : (n.length : Int) > mnl
    · rw [if_pos hcut]
      unfold pySlice
      rw [if_pos hmnl0]
      simp [List.length_take]
      omega
    · rw [if_neg hcut]
      push_neg at hcut
      simp at hle
      omega
  have hfin : ¬ (name2 ++ '.' :: e).length > m := by
    simp
    omega
  rw [if_neg hfin]
  exact ⟨name2, rfl, hlen2⟩

set_option maxRecDepth 4000

/-- Witness for C9 at the spec's own example, `"A"*300 + ".mp4"` with the
default maximum length 255: the result is a stem followed by `.mp4` and
fits in 255 characters. -/
theorem sanitize_filename_keeps_ext_witness :
    rsplitDot (cleanupFilename exampleNameA) = some (List.replicate 300 'A', "mp4".toList) ∧
    ('.' :: "mp4".toList).length ≤ 255 ∧
    ∃ stem, sanitize_filename exampleNameA 255 = stem ++ '.' :: "mp4".toList ∧
      stem.length + ('.' :: "mp4".toList).length ≤ 255 := by
  refine ⟨by decide, by decide, ?_⟩
  exact sanitize_filename_keeps_ext exampleNameA 255 (List.replicate 300 'A') "mp4".toList
    (by decide) (by decide)

/-- Each run makes at most as many attempts as it has retry budget. -/
theorem loopGo_attempts_le (env : Nat → AttemptOutcome) :
    ∀ r rc, (loopGo env rc r).attempts ≤ r := by
  intro r
  induction r with
  | zero => intro rc; simp [loopGo]
  | succ r ih =>
    intro rc
    rw [loopGo]
    cases h : attemptResult (env rc) with
    | success chunks => simp
    | failure e =>
      by_cases hc : isCaught e = true
      · by_cases hr : r = 0
        · simp [hc, hr]
        · simp only [hc, hr, if_true, if_false]
          have := ih (rc + 1)
          simp
          omega
      · simp [hc]

/-- With budget left, at least one attempt happens. -/
theorem loopGo_attempts_pos (env : Nat → AttemptOutcome) (rc r : Nat) (h : 1 ≤ r) :
    1 ≤ (loopGo env rc r).attempts := by
  cases r with
  | zero => omega
  | succ r =>
    rw [loopGo]
    cases hA : attemptResult (env rc) with
    | success chunks => simp
    | failure e =>
      by_cases hc : isCaught e = true
      · by_cases hr : r = 0
        · simp [hc, hr]
        · simp [hc, hr]
      · simp [hc]

/-- The sleep before attempt `rc + n + 2` lasts `2 * (rc + n + 1)`
seconds: one sleep per retried failure, linearly increasing. -/
theorem loopGo_sleeps_eq (env : Nat → AttemptOutcome) :
    ∀ r rc, (loopGo env rc r).sleeps =
      (List.range ((loopGo env rc r).attempts - 1)).map (fun n => 2 * (rc + n + 1)) := by
  intro r
  induction r with
  | zero => intro rc; simp [loopGo]
  | succ r ih =>
    intro rc
    rw [loopGo]
    cases hA : attemptResult (env rc) with
    | success chunks => simp
    | failure e =>
      by_cases hc : isCaught e = true
      · by_cases hr : r = 0
        · simp [hc, hr]
        · simp only [hc, hr, if_true, if_false]
          have hpos : 1 ≤ (loopGo env (rc + 1) r).attempts :=
            loopGo_attempts_pos env (rc + 1) r (by omega)
          have hsucc : (loopGo env (rc + 1) r).attempts + 1 - 1 =
              ((loopGo env (rc + 1) r).attempts - 1) + 1 := by omega
          simp only [hsucc]
          rw [List.range_succ_eq_map]
          simp only [List.map_cons, List.map_map]
          simp only [Nat.add_zero]
          congr 1
          rw [ih (rc + 1)]
          apply List.map_congr_left
          intro a _
          simp only [Function.comp_apply, Nat.succ_eq_add_one]
          ring
      · simp [hc]

/-- When every attempt in the budget fails with a caught exception, the
loop raises `downloadFailed` wrapping the last attempt's exception. -/
theorem loopGo_exhaust (env : Nat → AttemptOutcome) :
    ∀ r rc, 1 ≤ r →
      (∀ i, i < r → ∃ f, attemptResult (env (rc + i)) = .failure f ∧ isCaught f = true) →
      ∀ e, attemptResult (env (rc + (r - 1))) = .failure e →
      (loopGo env rc r).result = .raised (.downloadFailed e) := by
  intro r
  induction r with
  | zero => intro rc h; omega
  | succ r ih =>
    intro rc _ hall e hlast
    obtain ⟨f0, hf0, hc0⟩ := hall 0 (by omega)
    simp only [Nat.add_zero] at hf0
    rw [loopGo, hf0]
    by_cases hr : r = 0
    · subst hr
      simp only [Nat.add_zero, Nat.sub_self] at hlast
      rw [hf0] at hlast
      injection hlast with he
      subst he
      simp [hc0]
    · simp only [hc0, hr, if_true, if_false]
      apply ih (rc + 1) (by omega)
      · intro i hi
        have := hall (i + 1) (by omega)
        simpa [Nat.add_assoc, Nat.add_comm 1 i] using this
      · have : rc + 1 + (r - 1) = rc + (r + 1 - 1) := by omega
        rw [this]
        exact hlast

/-- Claim C8: `DirectDownloader.download` makes at most 3 attempts; the
sleep after retryable failure number `n + 1` lasts `2 * (n + 1)` seconds
(so 2s then 4s); and when all attempts fail with caught exceptions it
raises an error wrapping the last attempt's exception instead of
returning. -/
theorem direct_download_retry_policy (env : Nat → AttemptOutcome) :
    (directDownload env).attempts ≤ 3 ∧
    (directDownload env).sleeps =
      (List.range ((directDownload env).attempts - 1)).map (fun n => 2 * (n + 1)) ∧
    (∀ e, (∀ i, i < 3 → ∃ f, attemptResult (env i) = .failure f ∧ isCaught f = true) →
      attemptResult (env 2) = .failure e →
      (directDownload env).result = .raised (.downloadFailed e)) := by
  refine ⟨loopGo_attempts_le env 3 0, ?_, ?_⟩
  · have := loopGo_sleeps_eq env 3 0
    simpa [directDownload] using this
  · intro e hall hlast
    have := loopGo_exhaust env 3 0 (by omega) (by simpa using hall) e (by simpa using hlast)
    simpa [directDownload] using this

/-- Witness for C8 on a permanently failing transport: 3 attempts, sleeps
of 2s and 4s, and a wrapped final error. -/
theorem direct_download_retry_policy_witness :
    (directDownload (fun _ => .transport)).attempts ≤ 3 ∧
    (directDownload (fun _ => .transport)).sleeps =
      (List.range ((directDownload (fun _ => .transport)).attempts - 1)).map (fun n => 2 * (n + 1)) ∧
    (directDownload (fun _ => .transport)).result =
      .raised (.downloadFailed .clientConnError) := by
  obtain ⟨h1, h2, h3⟩ := direct_download_retry_policy (fun _ => .transport)
  refine ⟨h1, h2, ?_⟩
  exact h3 .clientConnError (fun i _ => ⟨.clientConnError, rfl, rfl⟩) rfl

/-- Counterexample to claim C3 as stated: a first attempt answered with
HTTP 404 is retried (the run makes a second attempt and succeeds), because
`raise_for_status` raises `ClientResponseError`, a subclass of
`aiohttp.ClientError`, which the retry handler catches. -/
theorem http_status_retried_cex :
    (directDownload envC3).result = .retFile [42] ∧ (directDownload envC3).attempts = 2 := by
  decide

/-- One step of the loop on a caught failure with budget remaining. -/
theorem loopGo_caught_succ (env : Nat → AttemptOutcome) (rc r : Nat) (e : PyExc)
    (hA : attemptResult (env rc) = .failure e) (hc : isCaught e = true) (hr : r ≠ 0) :
    loopGo env rc (r + 1) =
      ⟨(loopGo env (rc + 1) r).result, (loopGo env (rc + 1) r).attempts + 1,
        2 * (rc + 1) :: (loopGo env (rc + 1) r).sleeps⟩ := by
  rw [loopGo, hA]
  simp [hc, hr]

/-- One step of the loop on an uncaught exception: it propagates at once. -/
theorem loopGo_uncaught_succ (env : Nat → AttemptOutcome) (rc r : Nat) (e : PyExc)
    (hA : attemptResult (env rc) = .failure e) (hc : isCaught e = false) :
    loopGo env rc (r + 1) = ⟨.raised e, 1, []⟩ := by
  rw [loopGo, hA]
  simp [hc]

/-- Claim C3 amended: a non-2xx response raises `ClientResponseError`,
which the handler catches exactly like transport failures, so both are
retried (a second attempt follows, after a 2-second sleep); only
exceptions outside `(ClientError, TimeoutError)`, such as a file-write
`OSError`, abort the download immediately without retry. -/
theorem status_failure_retried (env : Nat → AttemptOutcome) (s : Nat) :
    (env 0 = .badStatus s → 2 ≤ (directDownload env).attempts ∧
      (directDownload env).sleeps.head? = some 2) ∧
    (env 0 = .transport → 2 ≤ (directDownload env).attempts) ∧
    (env 0 = .writeFailure → directDownload env = ⟨.raised .osError, 1, []⟩) := by
  refine ⟨?_, ?_, ?_⟩
  · intro h0
    have hA : attemptResult (env 0) = .failure (.clientResponseError s) := by rw [h0]; rfl
    have h3 : directDownload env =
        ⟨(loopGo env 1 2).result, (loopGo env 1 2).attempts + 1, 2 * 1 :: (loopGo env 1 2).sleeps⟩ :=
      loopGo_caught_succ env 0 2 (.clientResponseError s) hA rfl (by omega)
    rw [h3]
    have := loopGo_attempts_pos env 1 2 (by omega)
    constructor
    · simp
      omega
    · simp
  · intro h0
    have hA : attemptResult (env 0) = .failure .clientConnError := by rw [h0]; rfl
    have h3 : directDownload env =
        ⟨(loopGo env 1 2).result, (loopGo env 1 2).attempts + 1, 2 * 1 :: (loopGo env 1 2).sleeps⟩ :=
      loopGo_caught_succ env 0 2 .clientConnError hA rfl (by omega)
    rw [h3]
    have := loopGo_attempts_pos env 1 2 (by omega)
    simp
    omega
  · intro h0
    have hA : attemptResult (env 0) = .failure .osError := by rw [h0]; rfl
    exact loopGo_uncaught_succ env 0 2 .osError hA rfl

/-- Witness for the amended C3: after a first response of HTTP 500 a
second attempt occurs. -/
theorem status_failure_retried_witness :
    envC3a 0 = .badStatus 500 ∧ 2 ≤ (directDownload envC3a).attempts := by
  exact ⟨rfl, ((status_failure_retried envC3a 500).1 rfl).1⟩

/-- Counterexample to claim C5 as stated: with a progress callback
supplied and no `content-length` header, a two-chunk body produces zero
callback invocations, not one per chunk, because line 85 guards the call
with the truthiness of `total_size`. -/
theorem progress_unknown_total_cex :
    (progressCalls true none [5, 7]).length ≠ ([5, 7] : List Nat).length := by
  decide

/-- With a nonzero declared total, the callback fires once per chunk. -/
theorem progressGo_length_of_ne (total : Nat) (h : total ≠ 0) :
    ∀ (chunks : List Nat) (d : Nat), (progressGo true total d chunks).length = chunks.length := by
  intro chunks
  induction chunks with
  | nil => intro d; rfl
  | cons c cs ih =>
    intro d
    rw [progressGo]
    have : (true && (total != 0)) = true := by simp [h]
    rw [if_pos this]
    simp [ih]

/-- With a zero total, the callback never fires. -/
theorem progressGo_zero_total :
    ∀ (chunks : List Nat) (d : Nat) (hb : Bool), progressGo hb 0 d chunks = [] := by
  intro chunks
  induction chunks with
  | nil => intro d hb; rfl
  | cons c cs ih =>
    intro d hb
    rw [progressGo]
    have : (hb && ((0 : Nat) != 0)) = false := by simp
    rw [if_neg (by simp [this])]
    exact ih _ _

/-- Claim C5 amended: the progress callback is invoked once per chunk when
the response declares a nonzero content length, and is never invoked when
the content length is absent (total reported as 0). -/
theorem progress_per_chunk (total : Nat) (chunks : List Nat) :
    (total ≠ 0 → (progressCalls true (some total) chunks).length = chunks.length) ∧
    progressCalls true none chunks = [] := by
  constructor
  · intro h
    exact progressGo_length_of_ne total h chunks 0
  · exact progressGo_zero_total chunks 0 true

/-- Witness for the amended C5: a 100-byte total and two chunks give two
callback invocations. -/
theorem progress_per_chunk_witness :
    (100 : Nat) ≠ 0 ∧
    (progressCalls true (some 100) [5, 7]).length = ([5, 7] : List Nat).length := by
  exact ⟨by decide, (progress_per_chunk 100 [5, 7]).1 (by decide)⟩

/-- Counterexample to claim C1 as stated: `savedPath` is an existing local
file without the `.torrent` suffix, so the claimed classifier makes it a
torrent reference, yet the orchestrator's dispatch test on line 344
evaluates to false and the request is dispatched to the direct
downloader. -/
theorem torrent_classifier_cex :
    (torrentSuffix.isSuffixOf savedPath || existsSaved savedPath) = true ∧
    managerIsTorrent existsSaved savedPath = false ∧
    (managerDownload envC1 savedPath none true).2 = [.directDl savedPath none] := by
  decide

/-- Claim C1 amended: the suffix-or-existence rule holds for the routing
check inside `Aria2Downloader.download_uri`, but the orchestrator's
dispatch in `DownloadManager.download` classifies a source as a torrent
iff it ends with `.torrent` — its existence disjunct is conjoined with the
suffix test and therefore redundant, so an existing local file lacking the
suffix is dispatched as a direct URL. -/
theorem torrent_classifier_split (ex : List Char → Bool) (s : List Char) :
    managerIsTorrent ex s = torrentSuffix.isSuffixOf s ∧
    (isMagnetSource s = false →
      (uriRoute ex s = .torrentRef ↔ (torrentSuffix.isSuffixOf s || ex s) = true)) := by
  constructor
  · unfold managerIsTorrent
    cases h : torrentSuffix.isSuffixOf s <;> simp [h]
  · intro hm
    unfold uriRoute
    rw [hm]
    by_cases h2 : (torrentSuffix.isSuffixOf s || ex s) = true
    · simp [h2]
    · simp [h2]

/-- Witness for the amended C1 at the saved file: the manager test reduces
to the suffix test, while `download_uri` would route it as a torrent. -/
theorem torrent_classifier_split_witness :
    managerIsTorrent existsSaved savedPath = torrentSuffix.isSuffixOf savedPath ∧
    isMagnetSource savedPath = false ∧
    uriRoute existsSaved savedPath = .torrentRef := by
  refine ⟨(torrent_classifier_split existsSaved savedPath).1, by decide, ?_⟩
  exact ((torrent_classifier_split existsSaved savedPath).2 (by decide)).mpr (by decide)

/-- Claim C2: for a magnet or torrent source with the daemon unavailable,
`DownloadManager.download` fails with the daemon-required connection error
and invokes no delegate downloader at all — in particular not the direct
fetcher. -/
theorem daemon_required_no_fallback (env : ManagerEnv) (source : List Char)
    (filename : Option (List Char)) (useAria2 : Bool)
    (hsrc : (isMagnetSource source || torrentSuffix.isSuffixOf source) = true)
    (hdown : env.aria2Available = false) :
    managerDownload env source filename useAria2 = (.error .daemonRequired, []) := by
  have hdisp : (isMagnetSource source || managerIsTorrent env.pathExistsF source) = true := by
    unfold managerIsTorrent
    rcases Bool.or_eq_true_iff.mp hsrc with h | h <;> simp [h]
  simp only [managerDownload]
  rw [hdisp]
  simp [hdown]

/-- Witness for C2: a magnet link with an unreachable daemon. -/
theorem daemon_required_no_fallback_witness :
    (isMagnetSource magnetExample || torrentSuffix.isSuffixOf magnetExample) = true ∧
    envC2.aria2Available = false ∧
    managerDownload envC2 magnetExample none true = (.error .daemonRequired, []) := by
  refine ⟨by decide, by decide, ?_⟩
  exact daemon_required_no_fallback envC2 magnetExample none true (by decide) (by decide)

/-- Claim C6: for a direct-URL source with aria2 preferred and available,
if the aria2 attempt fails for any reason the manager's result is exactly
what the direct downloader alone produces for the same source and
filename. -/
theorem direct_url_fallback (env : ManagerEnv) (source : List Char)
    (filename : Option (List Char)) (e : MgrError)
    (hm : isMagnetSource source = false)
    (ht : torrentSuffix.isSuffixOf source = false)
    (ha : env.aria2Available = true)
    (hfail : env.aria2Uri source filename = .error e) :
    (managerDownload env source filename true).1 = env.directDl source filename := by
  simp only [managerDownload, managerIsTorrent, hm, ht, hfail]
  simp [ha]

/-- Witness for C6 on a failing daemon job and a healthy direct path. -/
theorem direct_url_fallback_witness :
    isMagnetSource urlExample = false ∧
    torrentSuffix.isSuffixOf urlExample = false ∧
    envC6.aria2Available = true ∧
    envC6.aria2Uri urlExample none = .error (.other 7) ∧
    (managerDownload envC6 urlExample none true).1 = envC6.directDl urlExample none := by
  refine ⟨by decide, by decide, by decide, rfl, ?_⟩
  exact direct_url_fallback envC6 urlExample none (.other 7) (by decide) (by decide)
    (by decide) rfl

/-- Claim C10: on the magnet/torrent path the manager's behaviour is
independent of the caller-supplied filename (the delegate receives only
the source), and the magnet/torrent submissions carry no output-name
option. -/
theorem magnet_torrent_ignore_filename (env : ManagerEnv) (source : List Char)
    (f1 f2 : Option (List Char)) (u : Bool)
    (hsrc : (isMagnetSource source || managerIsTorrent env.pathExistsF source) = true) :
    managerDownload env source f1 u = managerDownload env source f2 u ∧
    (∀ d, (magnetSubmitOptions d).outName = none ∧ (torrentSubmitOptions d).outName = none) := by
  constructor
  · simp only [managerDownload]
    rw [hsrc]
    simp
  · intro d
    exact ⟨rfl, rfl⟩

/-- Witness for C10: a magnet download yields the same run whether or not
a custom filename was supplied. -/
theorem magnet_torrent_ignore_filename_witness :
    (isMagnetSource magnetExample || managerIsTorrent envC2.pathExistsF magnetExample) = true ∧
    managerDownload envC2 magnetExample (some "custom".toList) true =
      managerDownload envC2 magnetExample none true := by
  refine ⟨by decide, ?_⟩
  exact (magnet_torrent_ignore_filename envC2 magnetExample (some "custom".toList) none true
    (by decide)).1

/-- Claim C7: a completed daemon job maps to a path by its output files:
none gives `<download_dir>/<job name>`, exactly one gives that file's
path, and more than one gives the parent directory of the first file. -/
theorem monitor_path_cases (dir : List String) (job : A2Job) :
    (job.files = [] → monitorResultPath dir job = dir ++ [job.name]) ∧
    (∀ f, job.files = [f] → monitorResultPath dir job = f) ∧
    (∀ f g rest, job.files = f :: g :: rest → monitorResultPath dir job = parentDir f) := by
  refine ⟨?_, ?_, ?_⟩
  · intro h; unfold monitorResultPath; rw [h]
  · intro f h; unfold monitorResultPath; rw [h]
  · intro f g rest h; unfold monitorResultPath; rw [h]

/-- Witness for C7: a three-file job resolves to the common parent
directory of its files. -/
theorem monitor_path_cases_witness :
    job3.files = [["downloads", "album", "track1.mp3"], ["downloads", "album", "track2.mp3"],
      ["downloads", "album", "track3.mp3"]] ∧
    monitorResultPath ["downloads"] job3 = ["downloads", "album"] := by
  refine ⟨rfl, ?_⟩
  have := (monitor_path_cases ["downloads"] job3).2.2 ["downloads", "album", "track1.mp3"]
    ["downloads", "album", "track2.mp3"] [["downloads", "album", "track3.mp3"]] rfl
  rw [this]
  rfl

end Leech
